import Mathlib

/-!
# Notes client (`static/js/app.js`)

A shallow embedding of the browser-side notes client: the form fields, the
render target and the operations `loadNotes`, `displayNotes`, `createNote`,
`editNote`, `updateNote`, `deleteNote`, `resetForm`, `escapeHtml` and the submit
handler.

Modelling conventions.

* A JavaScript string is a Lean `String` (a sequence of Unicode scalar values).
* The DOM cells the script reads and writes (`noteId.value`, `noteTitle.value`,
  `noteContent.value`, `submitBtn.textContent`, `cancelBtn.style.display`,
  `notesContainer.innerHTML`) are string fields holding what the getter returns.
  The page's markup is not part of the script, so the kind of each of the three
  value controls is a parameter (`Page`); assigning to `value` stores the text
  after the sanitisation of that kind of control (`sanitizeValue`).
* A Number is given by the decimal that `Number::toString` selects for it
  (`JsNumber`), so that its text is computed by the rest of that algorithm.
* Everything the script does to the outside world (`fetch`, `alert`, `confirm`,
  `console.error`, `showMessage`, `window.scrollTo`, `e.preventDefault`) is
  appended, in program order, to the `effects` trace of the client.
* What the outside world answers (the outcome of a `fetch`, the answer to
  `confirm`) is an argument of the operation that consumes it.
* `formatDate` depends on the locale database of the browser; it is a
  parameter `fmt : String → String` of the rendering functions.
-/

namespace NotesApp

/-! ## Data model -/

/-- A JavaScript Number other than NaN (which no JSON body yields).
`zero` is `+0` or `-0` (they print alike and compare equal).
`finite negative s n` is the number whose magnitude `Number::toString` writes
with the digits of `s` and the exponent `n`: the integers `n`, `k`, `s` of that
algorithm, with `k` the number of decimal digits of `s`, so the magnitude is the
Number nearest to `s * 10^(n - k)` and `s` has no trailing zero. For example 5
is `finite false 5 1`, 1.5 is `finite false 15 1`, 2^64 is
`finite false 18446744073709552 20` and 10^21 is `finite false 1 22`.
`infinity negative` is `Infinity` or `-Infinity`. -/
inductive JsNumber where
  | zero
  | finite (negative : Bool) (s : Nat) (n : Int)
  | infinity (negative : Bool)
  deriving DecidableEq

/-- The digits of a finite Number are a positive integer without trailing zero
(the `k` of `Number::toString` is as small as possible). -/
def JsNumber.canonical : JsNumber → Bool
  | JsNumber.finite _ s _ => decide (0 < s) && decide (s % 10 ≠ 0)
  | _ => true

/-- The Number `-x`. -/
def JsNumber.negate : JsNumber → JsNumber
  | JsNumber.zero => JsNumber.zero
  | JsNumber.finite negative s n => JsNumber.finite (!negative) s n
  | JsNumber.infinity negative => JsNumber.infinity (!negative)

/-- A note identifier as it arrives in a JSON body: a number or a string. -/
inductive JsId where
  | num (x : JsNumber)
  | str (s : String)
  deriving DecidableEq

/-- The entity `{id, title, content, created_at}` of the notes API. -/
structure Note where
  id : JsId
  title : String
  content : String
  created_at : String
  deriving DecidableEq

/-- The object sent as `JSON.stringify({ title, content })`. -/
structure NoteBody where
  title : String
  content : String
  deriving DecidableEq

/-- Outcome of `await fetch(...)` followed by `await response.json()`.
`failure`: the `fetch` promise rejects (no response).
`response ok json`: a response arrived with `response.ok = ok`; `json` is the
parsed body, or `none` when `response.json()` rejects or yields a value the
following statements cannot read (so that control passes to `catch`). -/
inductive Fetched (α : Type) where
  | failure
  | response (ok : Bool) (json : Option α)
  deriving DecidableEq

/-- Parsed body of a failed mutation as read by `error.error`:
`message m` is `{error: m}`, `noMessage` an object without that property. -/
inductive ErrorBody where
  | message (m : String)
  | noMessage
  deriving DecidableEq

/-- Parsed body of the single-note fetch: a note, or the API's error object
`{error: m}` (which has no `id`, `title` or `content`). -/
inductive NoteReply where
  | note (n : Note)
  | error (m : String)
  deriving DecidableEq

/-- The observable actions of the script. -/
inductive Effect where
  | preventDefault
  | fetch (method : String) (url : String) (body : Option NoteBody)
  | alert (message : String)
  | confirm (message : String)
  | consoleError (message : String)
  | showMessage (message : String)
  | scrollTo
  deriving DecidableEq

/-- The five form cells the script owns. -/
structure FormState where
  noteId : String
  noteTitle : String
  noteContent : String
  submitBtn : String
  cancelBtn : String
  deriving DecidableEq

/-- The client: form cells, render target, and the trace of effects so far. -/
structure Client where
  form : FormState
  notesContainer : String
  effects : List Effect
  deriving DecidableEq

/-- Append one effect to the trace. -/
def Client.emit (st : Client) (e : Effect) : Client :=
  { st with effects := st.effects ++ [e] }

/-- The constant `API_URL`. -/
def API_URL : String := "/api/notes"

/-! ## String conversions of JavaScript values -/

/-- Decimal digits of `n`, most significant first, prepended to `acc`;
`fuel` bounds the number of digits. -/
def decimalCore : Nat → Nat → List Char → List Char
  | 0, _, acc => acc
  | fuel + 1, n, acc =>
    if n < 10 then Char.ofNat (48 + n) :: acc
    else decimalCore fuel (n / 10) (Char.ofNat (48 + n % 10) :: acc)

/-- Decimal text of a natural number. -/
def natText (n : Nat) : List Char := decimalCore (n + 1) n []

/-- The text of a positive finite Number with digits `s` and exponent `n`:
steps 6 to 11 of `Number::toString` for radix ten. -/
def finiteText (s : Nat) (n : Int) : List Char :=
  let ds := natText s
  let k : Int := ds.length
  if -5 ≤ n ∧ n ≤ 21 then
    if k ≤ n then ds ++ List.replicate (n - k).toNat '0'
    else if 0 < n then ds.take n.toNat ++ '.' :: ds.drop n.toNat
    else '0' :: '.' :: (List.replicate (-n).toNat '0' ++ ds)
  else
    let exponentSign := if n < 0 then '-' else '+'
    let e := natText (n - 1).natAbs
    if ds.length = 1 then ds ++ 'e' :: exponentSign :: e
    else ds.take 1 ++ '.' :: (ds.drop 1 ++ 'e' :: exponentSign :: e)

/-- The operation `Number::toString(x, 10)`. -/
def numberText : JsNumber → List Char
  | JsNumber.zero => ['0']
  | JsNumber.finite negative s n => (if negative then ['-'] else []) ++ finiteText s n
  | JsNumber.infinity negative =>
    (if negative then ['-'] else []) ++ ['I', 'n', 'f', 'i', 'n', 'i', 't', 'y']

/-- The text a template literal `${id}` (or a `value` assignment) produces. -/
def idText : JsId → String
  | JsId.num x => String.mk (numberText x)
  | JsId.str s => s

/-- String form of a possibly absent property: `undefined` reads "undefined". -/
def propText : Option String → String
  | some s => s
  | none => "undefined"

/-- Property `id` of a single-note reply, as text. -/
def NoteReply.idProp : NoteReply → Option String
  | NoteReply.note n => some (idText n.id)
  | NoteReply.error _ => none

/-- Property `title` of a single-note reply. -/
def NoteReply.titleProp : NoteReply → Option String
  | NoteReply.note n => some n.title
  | NoteReply.error _ => none

/-- Property `content` of a single-note reply. -/
def NoteReply.contentProp : NoteReply → Option String
  | NoteReply.note n => some n.content
  | NoteReply.error _ => none

/-- Property `error` of a failed mutation's body, as text. -/
def ErrorBody.errorProp : ErrorBody → Option String
  | ErrorBody.message m => some m
  | ErrorBody.noMessage => none

/-! ## Value controls -/

/-- The kinds of control a `value` cell can be: `plain` stores what is assigned
(a hidden input), `singleLine` is a text input, `multiLine` a textarea. -/
inductive ControlKind where
  | plain
  | singleLine
  | multiLine
  deriving DecidableEq

/-- The kind of each of the three value controls of the page. -/
structure Page where
  noteId : ControlKind
  noteTitle : ControlKind
  noteContent : ControlKind
  deriving DecidableEq

/-- Newline normalisation of a textarea: CR LF and a lone CR become LF.
`afterCR` tells that the previous character was a CR. -/
def normalizeNewlines : Bool → List Char → List Char
  | _, [] => []
  | afterCR, c :: rest =>
    if c = Char.ofNat 13 then Char.ofNat 10 :: normalizeNewlines true rest
    else if c = Char.ofNat 10 ∧ afterCR = true then normalizeNewlines false rest
    else c :: normalizeNewlines false rest

/-- What the getter `value` returns after `value = text` on a control of the
given kind: a text input strips CR and LF, a textarea normalises newlines. -/
def sanitizeValue : ControlKind → String → String
  | ControlKind.plain, text => text
  | ControlKind.singleLine, text =>
    String.mk (text.data.filter fun c => c != Char.ofNat 10 && c != Char.ofNat 13)
  | ControlKind.multiLine, text => String.mk (normalizeNewlines false text.data)

/-- The text holds neither CR nor LF. -/
def noLineBreak (text : String) : Bool :=
  text.data.all fun c => c != Char.ofNat 10 && c != Char.ofNat 13

/-! ## `String.prototype.trim` -/

/-- ECMAScript `WhiteSpace` and `LineTerminator` code points. -/
def isJsWhiteSpace (c : Char) : Bool :=
  let n := c.toNat
  n = 0x09 || n = 0x0A || n = 0x0B || n = 0x0C || n = 0x0D || n = 0x20 ||
  n = 0xA0 || n = 0x1680 || (0x2000 ≤ n && n ≤ 0x200A) || n = 0x2028 ||
  n = 0x2029 || n = 0x202F || n = 0x205F || n = 0x3000 || n = 0xFEFF

/-- Strip leading and trailing white space from a character list. -/
def trimChars (cs : List Char) : List Char :=
  ((cs.dropWhile isJsWhiteSpace).reverse.dropWhile isJsWhiteSpace).reverse

/-- The method `trim()`. -/
def jsTrim (s : String) : String := String.mk (trimChars s.data)

/-! ## `escapeHtml`: a detached `div`, `textContent` setter, `innerHTML` getter -/

/-- The only node kind `escapeHtml` ever creates. -/
inductive DomNode where
  | text (data : String)
  deriving DecidableEq

/-- The setter `div.textContent = text` on a fresh `div`: the children become a
single text node, or nothing when the text is empty. -/
def setTextContent (text : String) : List DomNode :=
  if text = "" then [] else [DomNode.text text]

/-- Escaping of text-node data in HTML fragment serialisation. -/
def escapeChars : List Char → List Char
  | [] => []
  | c :: cs =>
    (if c = '&' then ['&', 'a', 'm', 'p', ';']
     else if c = Char.ofNat 0xA0 then ['&', 'n', 'b', 's', 'p', ';']
     else if c = '<' then ['&', 'l', 't', ';']
     else if c = '>' then ['&', 'g', 't', ';']
     else [c]) ++ escapeChars cs

/-- Serialisation of one child node. -/
def serializeNode : DomNode → String
  | DomNode.text d => String.mk (escapeChars d.data)

/-- The getter `div.innerHTML`. -/
def innerHTML (children : List DomNode) : String :=
  String.join (children.map serializeNode)

/-- The function `escapeHtml(text)`. -/
def escapeHtml (text : String) : String :=
  innerHTML (setTextContent text)

/-! ## Rendering -/

/-- One element of `notes.map(note => ...)`: the template literal of
`displayNotes`, with `fmt` standing for `formatDate`. -/
def noteCard (fmt : String → String) (note : Note) : String :=
  "\n        <div class=\"note-card\" data-id=\"" ++ idText note.id ++
  "\">\n            <div class=\"note-meta\">\n                🕒 " ++
  fmt note.created_at ++
  "\n            </div>\n            <h3>📌 " ++ escapeHtml note.title ++
  "</h3>\n            <p>" ++ escapeHtml note.content ++
  "</p>\n            <div class=\"note-actions\">\n                <button class=\"edit-btn\" onclick=\"editNote(" ++
  idText note.id ++
  ")\">Edit</button>\n                <button class=\"delete-btn\" onclick=\"deleteNote(" ++
  idText note.id ++
  ")\">Delete</button>\n            </div>\n        </div>\n    "

/-- The function `displayNotes(notes)`. -/
def displayNotes (fmt : String → String) (notes : List Note) (st : Client) : Client :=
  { st with notesContainer := String.join (notes.map (noteCard fmt)) }

/-- Markup shown for an empty collection. -/
def emptyStateMessage : String :=
  "<p class=\"empty-state\">No notes yet. Create your first note!</p>"

/-- Markup shown when loading fails. -/
def loadErrorMessage : String :=
  "<p class=\"empty-state\">Error loading notes. Please try again.</p>"

/-- First half of `loadNotes`: up to `await fetch(API_URL)`. -/
def loadNotesRequest (st : Client) : Client :=
  st.emit (Effect.fetch "GET" API_URL none)

/-- Second half of `loadNotes`: from the settled fetch to the end. -/
def loadNotesResume (fmt : String → String) (r : Fetched (List Note)) (st : Client) :
    Client :=
  match r with
  | Fetched.response _ (some notes) =>
    if notes.length = 0 then { st with notesContainer := emptyStateMessage }
    else displayNotes fmt notes st
  | _ =>
    { st.emit (Effect.consoleError "Error loading notes:") with
      notesContainer := loadErrorMessage }

/-- The function `loadNotes()`. -/
def loadNotes (fmt : String → String) (r : Fetched (List Note)) (st : Client) : Client :=
  loadNotesResume fmt r (loadNotesRequest st)

/-! ## Form operations -/

/-- The function `resetForm()`. The empty text is stored unchanged by every
kind of control. -/
def resetForm (st : Client) : Client :=
  { st with form :=
      { noteId := "", noteTitle := "", noteContent := "",
        submitBtn := "Add Note", cancelBtn := "none" } }

/-- The function `showMessage(message)`: a transient notification. -/
def showMessage (message : String) (st : Client) : Client :=
  st.emit (Effect.showMessage message)

/-- The function `createNote(title, content)`. `r` settles the `POST`, `reload`
settles the `GET` that `loadNotes()` issues on success; `loadNotes()` is not
awaited, so its second half runs after `showMessage`. -/
def createNote (fmt : String → String) (r : Fetched ErrorBody)
    (reload : Fetched (List Note)) (title content : String) (st : Client) : Client :=
  let st := st.emit (Effect.fetch "POST" API_URL (some { title := title, content := content }))
  match r with
  | Fetched.response true _ =>
    loadNotesResume fmt reload
      (showMessage "Note created successfully!" (loadNotesRequest (resetForm st)))
  | Fetched.response false (some error) =>
    st.emit (Effect.alert ("Error: " ++ propText error.errorProp))
  | _ =>
    (st.emit (Effect.consoleError "Error creating note:")).emit
      (Effect.alert "Failed to create note")

/-- The function `editNote(id)` on a page whose value controls have the kinds
`page`. -/
def editNote (page : Page) (r : Fetched NoteReply) (id : JsId) (st : Client) : Client :=
  let st := st.emit (Effect.fetch "GET" (API_URL ++ "/" ++ idText id) none)
  match r with
  | Fetched.response _ (some note) =>
    { st with form :=
        { noteId := sanitizeValue page.noteId (propText note.idProp),
          noteTitle := sanitizeValue page.noteTitle (propText note.titleProp),
          noteContent := sanitizeValue page.noteContent (propText note.contentProp),
          submitBtn := "Update Note",
          cancelBtn := "inline-block" } }.emit Effect.scrollTo
  | _ =>
    (st.emit (Effect.consoleError "Error loading note:")).emit
      (Effect.alert "Failed to load note")

/-- The function `updateNote(id, title, content)`. -/
def updateNote (fmt : String → String) (r : Fetched ErrorBody)
    (reload : Fetched (List Note)) (id : JsId) (title content : String) (st : Client) :
    Client :=
  let st := st.emit (Effect.fetch "PUT" (API_URL ++ "/" ++ idText id)
    (some { title := title, content := content }))
  match r with
  | Fetched.response true _ =>
    loadNotesResume fmt reload
      (showMessage "Note updated successfully!" (loadNotesRequest (resetForm st)))
  | Fetched.response false (some error) =>
    st.emit (Effect.alert ("Error: " ++ propText error.errorProp))
  | _ =>
    (st.emit (Effect.consoleError "Error updating note:")).emit
      (Effect.alert "Failed to update note")

/-- The function `deleteNote(id)`; `confirmed` is the answer to `confirm`. -/
def deleteNote (fmt : String → String) (confirmed : Bool) (r : Fetched ErrorBody)
    (reload : Fetched (List Note)) (id : JsId) (st : Client) : Client :=
  let st := st.emit (Effect.confirm "Are you sure you want to delete this note?")
  if !confirmed then st
  else
    let st := st.emit (Effect.fetch "DELETE" (API_URL ++ "/" ++ idText id) none)
    match r with
    | Fetched.response true _ =>
      loadNotesResume fmt reload
        (showMessage "Note deleted successfully!" (loadNotesRequest st))
    | Fetched.response false (some error) =>
      st.emit (Effect.alert ("Error: " ++ propText error.errorProp))
    | _ =>
      (st.emit (Effect.consoleError "Error deleting note:")).emit
        (Effect.alert "Failed to delete note")

/-- The listener registered with `noteForm.addEventListener('submit', ...)`. -/
def submitHandler (fmt : String → String) (r : Fetched ErrorBody)
    (reload : Fetched (List Note)) (st : Client) : Client :=
  let st := st.emit Effect.preventDefault
  let id := st.form.noteId
  let title := jsTrim st.form.noteTitle
  let content := jsTrim st.form.noteContent
  if title = "" ∨ content = "" then
    st.emit (Effect.alert "Please fill in both title and content")
  else if id ≠ "" then
    updateNote fmt r reload (JsId.str id) title content st
  else
    createNote fmt r reload title content st

/-! ## Predicates used to state the properties -/

/-- The text right after an ampersand spells one of the four character
references the serialiser writes. -/
def startsEntity (cs : List Char) : Bool :=
  ['a', 'm', 'p', ';'].isPrefixOf cs || ['l', 't', ';'].isPrefixOf cs ||
  ['g', 't', ';'].isPrefixOf cs || ['n', 'b', 's', 'p', ';'].isPrefixOf cs

/-- Every ampersand of the text starts a character reference. -/
def ampersandsStartEntities : List Char → Bool
  | [] => true
  | c :: cs => (c != '&' || startsEntity cs) && ampersandsStartEntities cs

/-- The text holds none of the characters that end a double-quoted attribute
value, open or close a tag, or start a character reference. -/
def markupInert (s : String) : Bool :=
  s.data.all fun c => c != Char.ofNat 34 && c != '<' && c != '>' && c != '&'

/-- A decimal digit. -/
def isDecimalDigit (c : Char) : Bool := 48 ≤ c.toNat && c.toNat ≤ 57

/-- A character that can occur in the text of a Number: a digit, a sign, the
decimal point, the exponent mark, or a letter of `Infinity`. -/
def isNumberTextChar (c : Char) : Bool :=
  isDecimalDigit c || c == '-' || c == '+' || c == '.' || c == 'e' ||
  c == 'I' || c == 'n' || c == 'f' || c == 'i' || c == 't' || c == 'y'

/-- Value of a digit string read in base ten. -/
def digitsValue (cs : List Char) : Nat :=
  cs.foldl (fun a c => 10 * a + (c.toNat - 48)) 0

/-- A digit string without its trailing zeros. -/
def dropTrailingZeros (cs : List Char) : List Char :=
  ((cs.reverse.dropWhile fun c => c == '0')).reverse

/-- The Number written with integer digits `intPart`, fraction digits `frac`
and exponent `e`, in the form of `JsNumber`: leading and trailing zeros are
dropped from the digits and the exponent counts from the first digit kept. -/
def decimalNumber (intPart frac : List Char) (e : Int) : JsNumber :=
  let all := intPart ++ frac
  let sig := all.dropWhile fun c => c == '0'
  let kept := dropTrailingZeros sig
  if kept = [] then JsNumber.zero
  else JsNumber.finite false (digitsValue kept)
    ((intPart.length : Int) + e - ((all.length - sig.length : Nat) : Int))

/-- Value of an exponent part: nothing, or `e` or `E`, an optional sign and at
least one digit. -/
def readExponent : List Char → Option Int
  | [] => some 0
  | c :: rest =>
    if c = 'e' ∨ c = 'E' then
      match rest with
      | [] => none
      | d :: ds =>
        if d = '+' then
          if ds ≠ [] ∧ ds.all isDecimalDigit = true then some (digitsValue ds) else none
        else if d = '-' then
          if ds ≠ [] ∧ ds.all isDecimalDigit = true then some (-(digitsValue ds : Int))
          else none
        else if (d :: ds).all isDecimalDigit = true then some (digitsValue (d :: ds))
        else none
    else none

/-- Value of a JavaScript decimal literal: integer digits (no leading zero
except for a lone `0`), an optional `.` with fraction digits, an optional
exponent part; `none` for any other text. -/
def readNumericLiteral (cs : List Char) : Option JsNumber :=
  let intPart := cs.takeWhile isDecimalDigit
  let r1 := cs.dropWhile isDecimalDigit
  if intPart = [] then none
  else if intPart.head? = some '0' ∧ 1 < intPart.length then none
  else
    match r1 with
    | [] => some (decimalNumber intPart [] 0)
    | c :: r =>
      if c = '.' then
        (readExponent (r.dropWhile isDecimalDigit)).map
          (decimalNumber intPart (r.takeWhile isDecimalDigit))
      else (readExponent (c :: r)).map (decimalNumber intPart [])

/-- Value of `Infinity` or of a decimal literal. -/
def readUnsigned (cs : List Char) : Option JsNumber :=
  if cs = ['I', 'n', 'f', 'i', 'n', 'i', 't', 'y'] then some (JsNumber.infinity false)
  else readNumericLiteral cs

/-- Value of the argument expression of a trigger `editNote(...)` or
`deleteNote(...)` when that expression is `Infinity` or a decimal literal,
possibly negated; `none` for any other text. A literal denotes the Number
nearest to its decimal value; the reader returns that decimal in the form of
`JsNumber`, which for a text written by `Number::toString` is the Number that was
printed. -/
def readArgument (s : String) : Option JsId :=
  match s.data with
  | [] => none
  | c :: rest =>
    if c = '-' then (readUnsigned rest).map fun x => JsId.num x.negate
    else (readUnsigned (c :: rest)).map JsId.num

/-- The text `t` is `s` without its leading and trailing white space: `s` is `t`
between two runs of white space, and `t` neither starts nor ends with white
space. -/
def IsTrimOf (t s : String) : Prop :=
  (∃ pre post : List Char, s.data = pre ++ t.data ++ post ∧
    (∀ c ∈ pre, isJsWhiteSpace c = true) ∧ (∀ c ∈ post, isJsWhiteSpace c = true)) ∧
  (∀ c, t.data.head? = some c → isJsWhiteSpace c = false) ∧
  (∀ c, t.data.getLast? = some c → isJsWhiteSpace c = false)

/-- The identifier is bound to the triggers as written and its text cannot
change the markup around it. -/
def idBoundSafely (id : JsId) : Prop :=
  readArgument (idText id) = some id ∧ markupInert (idText id) = true

/-- A request that reaches the network. -/
def Effect.isFetch : Effect → Bool
  | Effect.fetch _ _ _ => true
  | _ => false

/-- A blocking notice. -/
def Effect.isAlert : Effect → Bool
  | Effect.alert _ => true
  | _ => false

/-- A transient notification. -/
def Effect.isShowMessage : Effect → Bool
  | Effect.showMessage _ => true
  | _ => false

/-- A request that writes: any `fetch` whose method is not `GET`. -/
def Effect.isMutation : Effect → Bool
  | Effect.fetch method _ _ => method != "GET"
  | _ => false

/-- The network requests issued so far, in order. -/
def Client.requests (st : Client) : List Effect := st.effects.filter Effect.isFetch

/-- The writing requests issued so far, in order. -/
def Client.mutations (st : Client) : List Effect := st.effects.filter Effect.isMutation

/-- A client with a half-filled form and one rendered line, used in examples. -/
def sampleClient : Client :=
  { form := { noteId := "", noteTitle := " Groceries ", noteContent := "milk",
              submitBtn := "Add Note", cancelBtn := "none" },
    notesContainer := emptyStateMessage,
    effects := [] }

/-- A client in Edit mode whose title cell holds white space only. -/
def blankTitleClient : Client :=
  { form := { noteId := "5", noteTitle := " \t\n", noteContent := "milk",
              submitBtn := "Update Note", cancelBtn := "inline-block" },
    notesContainer := emptyStateMessage,
    effects := [] }

/-- A client in Edit mode for note 5 whose content cell is padded. -/
def editingClient : Client :=
  { form := { noteId := "5", noteTitle := "A", noteContent := "  B\n",
              submitBtn := "Update Note", cancelBtn := "inline-block" },
    notesContainer := emptyStateMessage,
    effects := [] }

/-- A page with a hidden identifier, a text input for the title and a textarea
for the content. -/
def standardPage : Page :=
  { noteId := ControlKind.plain, noteTitle := ControlKind.singleLine,
    noteContent := ControlKind.multiLine }

/-- The note of the editing example: id 5, title "A", content "B". -/
def exampleNote : Note :=
  { id := JsId.num (JsNumber.finite false 5 1), title := "A", content := "B",
    created_at := "2024-01-01T00:00:00Z" }

/-- A note whose identifier is the empty string. -/
def emptyIdNote : Note :=
  { id := JsId.str "", title := "A", content := "B", created_at := "2024-01-01T00:00:00Z" }

/-- A note whose title and content hold line breaks. -/
def multiLineNote : Note :=
  { id := JsId.num (JsNumber.finite false 5 1), title := "Line1\nLine2",
    content := "a\r\nb", created_at := "2024-01-01T00:00:00Z" }

/-! ## Escaping -/

theorem join_singleton (s : String) : String.join [s] = s := by
  apply String.ext
  simp [String.join]

theorem join_cons (s : String) (ss : List String) :
    String.join (s :: ss) = s ++ String.join ss := by
  apply String.ext
  simp [String.join_eq]

theorem join_append (xs ys : List String) :
    String.join (xs ++ ys) = String.join xs ++ String.join ys := by
  apply String.ext
  simp [String.join_eq]

theorem escapeHtml_data (text : String) :
    (escapeHtml text).data = escapeChars text.data := by
  unfold escapeHtml setTextContent
  by_cases h : text = ""
  · subst h
    rfl
  · rw [if_neg h]
    simp only [innerHTML, List.map, join_singleton, serializeNode]

theorem escapeChars_no_lt (cs : List Char) : '<' ∉ escapeChars cs := by
  induction cs with
  | nil => simp [escapeChars]
  | cons c cs ih =>
    unfold escapeChars
    split_ifs with h1 h2 h3 h4
    · simpa using ih
    · simpa using ih
    · simpa using ih
    · simpa using ih
    · simp only [List.singleton_append, List.mem_cons, not_or]
      exact ⟨fun h => h3 h.symm, ih⟩

theorem escapeChars_no_gt (cs : List Char) : '>' ∉ escapeChars cs := by
  induction cs with
  | nil => simp [escapeChars]
  | cons c cs ih =>
    unfold escapeChars
    split_ifs with h1 h2 h3 h4
    · simpa using ih
    · simpa using ih
    · simpa using ih
    · simpa using ih
    · simp only [List.singleton_append, List.mem_cons, not_or]
      exact ⟨fun h => h4 h.symm, ih⟩

theorem escapeChars_ampersands (cs : List Char) :
    ampersandsStartEntities (escapeChars cs) = true := by
  induction cs with
  | nil => rfl
  | cons c cs ih =>
    unfold escapeChars
    split_ifs with h1 h2 h3 h4
    · simp [ampersandsStartEntities, startsEntity, List.isPrefixOf, ih]
    · simp [ampersandsStartEntities, startsEntity, List.isPrefixOf, ih]
    · simp [ampersandsStartEntities, startsEntity, List.isPrefixOf, ih]
    · simp [ampersandsStartEntities, startsEntity, List.isPrefixOf, ih]
    · simp [ampersandsStartEntities, ih, h1]

/-- C1: the markup `displayNotes` produces is the concatenation of the cards,
so the card of every note of the list is a piece of it; in each card the title
and the content enter only through `escapeHtml` (the pieces around them do not
depend on either), and escaped text holds no `<`, no `>`, and no `&` other than
the first character of a character reference. -/
theorem displayNotes_inserts_only_escaped_text (fmt : String → String) :
    (∀ (notes : List Note) (st : Client),
      (displayNotes fmt notes st).notesContainer = String.join (notes.map (noteCard fmt)) ∧
      ∀ note ∈ notes, ∃ before after : String,
        (displayNotes fmt notes st).notesContainer = before ++ noteCard fmt note ++ after) ∧
    (∀ (id : JsId) (created_at : String), ∃ pre mid post : String,
      ∀ title content : String,
        noteCard fmt { id := id, title := title, content := content, created_at := created_at }
          = pre ++ escapeHtml title ++ mid ++ escapeHtml content ++ post) ∧
    (∀ text : String,
      '<' ∉ (escapeHtml text).data ∧ '>' ∉ (escapeHtml text).data ∧
      ampersandsStartEntities (escapeHtml text).data = true ∧
      (escapeHtml text).data = escapeChars text.data) := by
  refine ⟨fun notes st => ⟨rfl, fun note hmem => ?_⟩, ?_, ?_⟩
  · obtain ⟨l1, l2, rfl⟩ := List.append_of_mem hmem
    refine ⟨String.join (l1.map (noteCard fmt)), String.join (l2.map (noteCard fmt)), ?_⟩
    simp only [displayNotes, List.map_append, List.map_cons, join_append, join_cons,
      String.append_assoc]
  · intro id created_at
    refine ⟨"\n        <div class=\"note-card\" data-id=\"" ++ idText id ++
        "\">\n            <div class=\"note-meta\">\n                🕒 " ++
        fmt created_at ++ "\n            </div>\n            <h3>📌 ",
      "</h3>\n            <p>",
      "</p>\n            <div class=\"note-actions\">\n                <button class=\"edit-btn\" onclick=\"editNote(" ++
        idText id ++
        ")\">Edit</button>\n                <button class=\"delete-btn\" onclick=\"deleteNote(" ++
        idText id ++
        ")\">Delete</button>\n            </div>\n        </div>\n    ",
      fun title content => ?_⟩
    simp only [noteCard, String.append_assoc]
  · intro text
    rw [escapeHtml_data]
    exact ⟨escapeChars_no_lt _, escapeChars_no_gt _, escapeChars_ampersands _, rfl⟩

/-! ## Frame lemmas for the operations -/

theorem loadNotesResume_form (fmt : String → String) (r : Fetched (List Note)) (st : Client) :
    (loadNotesResume fmt r st).form = st.form := by
  unfold loadNotesResume
  split
  · split <;> rfl
  · rfl

theorem loadNotesResume_requests (fmt : String → String) (r : Fetched (List Note))
    (st : Client) : (loadNotesResume fmt r st).requests = st.requests := by
  unfold loadNotesResume
  split
  · split <;> rfl
  · simp [Client.requests, Client.emit, Effect.isFetch]

theorem createNote_requests_ne (fmt : String → String) (r : Fetched ErrorBody)
    (reload : Fetched (List Note)) (title content : String) (st : Client) :
    st.requests.length < (createNote fmt r reload title content st).requests.length := by
  unfold createNote
  rcases r with _ | ⟨_ | _, _ | _⟩ <;>
    (try simp only [loadNotesResume_requests]) <;>
    simp [showMessage, loadNotesRequest, resetForm, Client.requests, Client.emit,
      Effect.isFetch]

theorem updateNote_requests_ne (fmt : String → String) (r : Fetched ErrorBody)
    (reload : Fetched (List Note)) (id : JsId) (title content : String) (st : Client) :
    st.requests.length < (updateNote fmt r reload id title content st).requests.length := by
  unfold updateNote
  rcases r with _ | ⟨_ | _, _ | _⟩ <;>
    (try simp only [loadNotesResume_requests]) <;>
    simp [showMessage, loadNotesRequest, resetForm, Client.requests, Client.emit,
      Effect.isFetch]

/-- C2: when the trimmed title or the trimmed content is empty, the submit
handler only cancels the default action and shows the validation notice: the
form cells and the render target are unchanged and no request is issued. Every
run of `createNote` or `updateNote` issues a request, so neither ran. -/
theorem submit_invalid_issues_no_request (fmt : String → String) (r : Fetched ErrorBody)
    (reload : Fetched (List Note)) (st : Client)
    (h : jsTrim st.form.noteTitle = "" ∨ jsTrim st.form.noteContent = "") :
    submitHandler fmt r reload st =
      { st with effects := st.effects ++
          [Effect.preventDefault, Effect.alert "Please fill in both title and content"] } ∧
    (submitHandler fmt r reload st).form = st.form ∧
    (submitHandler fmt r reload st).notesContainer = st.notesContainer ∧
    (submitHandler fmt r reload st).requests = st.requests ∧
    (∀ (r1 : Fetched ErrorBody) (l1 : Fetched (List Note)) (id t c : _) (s : Client),
      s.requests.length < (createNote fmt r1 l1 t c s).requests.length ∧
      s.requests.length < (updateNote fmt r1 l1 id t c s).requests.length) := by
  have key : submitHandler fmt r reload st =
      { st with effects := st.effects ++
          [Effect.preventDefault, Effect.alert "Please fill in both title and content"] } := by
    unfold submitHandler
    simp only [Client.emit]
    rw [if_pos h]
    simp
  refine ⟨key, ?_, ?_, ?_, ?_⟩
  · rw [key]
  · rw [key]
  · rw [key]
    simp [Client.requests, Effect.isFetch]
  · intro r1 l1 id t c s
    exact ⟨createNote_requests_ne fmt r1 l1 t c s, updateNote_requests_ne fmt r1 l1 id t c s⟩

/-- Witness for C2: a form whose title is white space only. -/
theorem submit_invalid_issues_no_request_witness :
    (jsTrim blankTitleClient.form.noteTitle = "" ∨
      jsTrim blankTitleClient.form.noteContent = "") ∧
    (submitHandler (fun s => s) Fetched.failure Fetched.failure blankTitleClient).requests =
      blankTitleClient.requests :=
  ⟨by decide,
    (submit_invalid_issues_no_request (fun s => s) Fetched.failure Fetched.failure
      blankTitleClient (by decide)).2.2.2.1⟩

/-! ## Trimming -/

theorem trimChars_split (cs : List Char) :
    ∃ pre post : List Char, cs = pre ++ trimChars cs ++ post ∧
      (∀ c ∈ pre, isJsWhiteSpace c = true) ∧ (∀ c ∈ post, isJsWhiteSpace c = true) := by
  refine ⟨cs.takeWhile isJsWhiteSpace,
    (((cs.dropWhile isJsWhiteSpace).reverse).takeWhile isJsWhiteSpace).reverse, ?_, ?_, ?_⟩
  · have h1 := List.takeWhile_append_dropWhile isJsWhiteSpace cs
    have h2 := List.takeWhile_append_dropWhile isJsWhiteSpace
      (cs.dropWhile isJsWhiteSpace).reverse
    have h3 : cs.dropWhile isJsWhiteSpace =
        trimChars cs ++
          (((cs.dropWhile isJsWhiteSpace).reverse).takeWhile isJsWhiteSpace).reverse := by
      unfold trimChars
      rw [← List.reverse_append, h2, List.reverse_reverse]
    rw [List.append_assoc, ← h3, h1]
  · intro c hc
    exact List.mem_takeWhile_imp hc
  · intro c hc
    exact List.mem_takeWhile_imp (List.mem_reverse.mp hc)

theorem trimChars_last (cs : List Char) (c : Char)
    (h : (trimChars cs).getLast? = some c) : isJsWhiteSpace c = false := by
  unfold trimChars at h
  rw [List.getLast?_reverse] at h
  have := List.head?_dropWhile_not isJsWhiteSpace (cs.dropWhile isJsWhiteSpace).reverse
  rw [h] at this
  simpa using this

theorem trimChars_head (cs : List Char) (c : Char)
    (h : (trimChars cs).head? = some c) : isJsWhiteSpace c = false := by
  obtain ⟨pre, post, hsplit, hpre, hpost⟩ := trimChars_split cs
  have h1 := List.takeWhile_append_dropWhile isJsWhiteSpace
    (cs.dropWhile isJsWhiteSpace).reverse
  have h3 : cs.dropWhile isJsWhiteSpace =
      trimChars cs ++
        (((cs.dropWhile isJsWhiteSpace).reverse).takeWhile isJsWhiteSpace).reverse := by
    unfold trimChars
    rw [← List.reverse_append, h1, List.reverse_reverse]
  have h4 := List.head?_dropWhile_not isJsWhiteSpace cs
  rw [h3, List.head?_append, h] at h4
  simpa using h4

theorem jsTrim_isTrimOf (s : String) : IsTrimOf (jsTrim s) s := by
  refine ⟨?_, ?_, ?_⟩
  · obtain ⟨pre, post, h, hpre, hpost⟩ := trimChars_split s.data
    exact ⟨pre, post, h, hpre, hpost⟩
  · intro c hc
    exact trimChars_head s.data c hc
  · intro c hc
    exact trimChars_last s.data c hc

theorem dropWhile_prefix (p : Char → Bool) (pre rest : List Char)
    (hpre : ∀ c ∈ pre, p c = true) (hrest : ∀ c r, rest = c :: r → p c = false) :
    (pre ++ rest).dropWhile p = rest := by
  induction pre with
  | nil =>
    cases rest with
    | nil => rfl
    | cons c r =>
      have hc := hrest c r rfl
      simp only [List.nil_append, List.dropWhile_cons, hc]
      rfl
  | cons d pre ih =>
    have hd := hpre d (List.mem_cons_self _ _)
    simp only [List.cons_append, List.dropWhile_cons, hd, if_true]
    exact ih (fun c hc => hpre c (List.mem_cons_of_mem _ hc))

theorem isTrimOf_unique (t s : String) (h : IsTrimOf t s) : t = jsTrim s := by
  obtain ⟨⟨pre, post, hsplit, hpre, hpost⟩, hhead, hlast⟩ := h
  apply String.ext
  show t.data = trimChars s.data
  unfold trimChars
  rw [hsplit, List.append_assoc]
  by_cases hnil : t.data = []
  · rw [hnil, List.nil_append]
    have h1 : (pre ++ post).dropWhile isJsWhiteSpace = [] := by
      have := dropWhile_prefix isJsWhiteSpace (pre ++ post) []
        (by
          intro c hc
          rcases List.mem_append.mp hc with hc | hc
          · exact hpre c hc
          · exact hpost c hc)
        (by intro c r hcr; exact absurd hcr (by simp))
      rwa [List.append_nil] at this
    rw [h1]
    rfl
  · obtain ⟨c, rest, hcr⟩ := List.exists_cons_of_ne_nil hnil
    have h1 : (pre ++ (t.data ++ post)).dropWhile isJsWhiteSpace = t.data ++ post := by
      apply dropWhile_prefix _ _ _ hpre
      intro d r hdr
      rw [hcr] at hdr
      simp only [List.cons_append, List.cons.injEq] at hdr
      rw [← hdr.1]
      exact hhead c (by rw [hcr]; rfl)
    rw [h1, List.reverse_append]
    have h2 : (post.reverse ++ t.data.reverse).dropWhile isJsWhiteSpace = t.data.reverse := by
      apply dropWhile_prefix _ _ _ (fun d hd => hpost d (List.mem_reverse.mp hd))
      intro d r hdr
      apply hlast d
      rw [← List.head?_reverse, hdr]
      rfl
    rw [h2, List.reverse_reverse]

/-! ## Value controls -/

theorem normalizeNewlines_id (cs : List Char) (h : ∀ c ∈ cs, c ≠ Char.ofNat 13) :
    normalizeNewlines false cs = cs := by
  induction cs with
  | nil => rfl
  | cons c cs ih =>
    have hc : c ≠ Char.ofNat 13 := h c (List.mem_cons_self _ _)
    unfold normalizeNewlines
    rw [if_neg hc, if_neg (by simp), ih (fun d hd => h d (List.mem_cons_of_mem _ hd))]

theorem sanitizeValue_noLineBreak (kind : ControlKind) (text : String)
    (h : noLineBreak text = true) : sanitizeValue kind text = text := by
  unfold noLineBreak at h
  rw [List.all_eq_true] at h
  cases kind with
  | plain => rfl
  | singleLine =>
    unfold sanitizeValue
    apply String.ext
    exact List.filter_eq_self.mpr h
  | multiLine =>
    unfold sanitizeValue
    apply String.ext
    apply normalizeNewlines_id
    intro c hc
    have := h c hc
    simp only [Bool.and_eq_true, bne_iff_ne, ne_eq] at this
    exact this.2

theorem sanitizeValue_undefined (kind : ControlKind) :
    sanitizeValue kind "undefined" = "undefined" :=
  sanitizeValue_noLineBreak kind "undefined" (by decide)

theorem sanitizeValue_multiLine (text : String)
    (h : ∀ c ∈ text.data, c ≠ Char.ofNat 13) :
    sanitizeValue ControlKind.multiLine text = text := by
  unfold sanitizeValue
  apply String.ext
  exact normalizeNewlines_id text.data h

theorem loadNotesResume_mutations (fmt : String → String) (r : Fetched (List Note))
    (st : Client) : (loadNotesResume fmt r st).mutations = st.mutations := by
  unfold loadNotesResume
  split
  · split <;> rfl
  · simp [Client.mutations, Client.emit, Effect.isMutation]

theorem createNote_mutations (fmt : String → String) (r : Fetched ErrorBody)
    (reload : Fetched (List Note)) (title content : String) (st : Client) :
    (createNote fmt r reload title content st).mutations =
      st.mutations ++ [Effect.fetch "POST" API_URL (some { title := title, content := content })] := by
  unfold createNote
  rcases r with _ | ⟨_ | _, _ | _⟩ <;>
    (try simp only [loadNotesResume_mutations]) <;>
    simp [showMessage, loadNotesRequest, resetForm, Client.mutations, Client.emit,
      Effect.isMutation]

theorem updateNote_mutations (fmt : String → String) (r : Fetched ErrorBody)
    (reload : Fetched (List Note)) (id : JsId) (title content : String) (st : Client) :
    (updateNote fmt r reload id title content st).mutations =
      st.mutations ++ [Effect.fetch "PUT" (API_URL ++ "/" ++ idText id)
        (some { title := title, content := content })] := by
  unfold updateNote
  rcases r with _ | ⟨_ | _, _ | _⟩ <;>
    (try simp only [loadNotesResume_mutations]) <;>
    simp [showMessage, loadNotesRequest, resetForm, Client.mutations, Client.emit,
      Effect.isMutation]

theorem emit_preventDefault_mutations (st : Client) :
    (st.emit Effect.preventDefault).mutations = st.mutations := by
  simp [Client.mutations, Client.emit, Effect.isMutation]

theorem submitHandler_update (fmt : String → String) (r : Fetched ErrorBody)
    (reload : Fetched (List Note)) (st : Client)
    (ht : jsTrim st.form.noteTitle ≠ "") (hc : jsTrim st.form.noteContent ≠ "")
    (hid : st.form.noteId ≠ "") :
    submitHandler fmt r reload st =
      updateNote fmt r reload (JsId.str st.form.noteId) (jsTrim st.form.noteTitle)
        (jsTrim st.form.noteContent) (st.emit Effect.preventDefault) := by
  have hv : ¬ (jsTrim st.form.noteTitle = "" ∨ jsTrim st.form.noteContent = "") := by
    rintro (h | h)
    · exact ht h
    · exact hc h
  unfold submitHandler
  simp only [Client.emit]
  rw [if_neg hv, if_pos hid]

theorem submitHandler_create (fmt : String → String) (r : Fetched ErrorBody)
    (reload : Fetched (List Note)) (st : Client)
    (ht : jsTrim st.form.noteTitle ≠ "") (hc : jsTrim st.form.noteContent ≠ "")
    (hid : st.form.noteId = "") :
    submitHandler fmt r reload st =
      createNote fmt r reload (jsTrim st.form.noteTitle) (jsTrim st.form.noteContent)
        (st.emit Effect.preventDefault) := by
  have hv : ¬ (jsTrim st.form.noteTitle = "" ∨ jsTrim st.form.noteContent = "") := by
    rintro (h | h)
    · exact ht h
    · exact hc h
  unfold submitHandler
  simp only [Client.emit]
  rw [if_neg hv, if_neg (not_not.mpr hid)]

/-- C3: when the trimmed title and the trimmed content are both non-empty, the
submit handler is exactly one call: `updateNote` with the identifier cell and
the trimmed values when that cell is non-empty, `createNote` with the trimmed
values when it is empty. In either case exactly one writing request is added to
the trace, a `PUT` to the note's URL or a `POST` to the collection, and its
body carries the trimmed title and content. The values passed are the cells
without their leading and trailing white space (`IsTrimOf`), and no other text
fits that description. -/
theorem submit_valid_delegates_once (fmt : String → String) (r : Fetched ErrorBody)
    (reload : Fetched (List Note)) (st : Client)
    (ht : jsTrim st.form.noteTitle ≠ "") (hc : jsTrim st.form.noteContent ≠ "") :
    (st.form.noteId ≠ "" →
      submitHandler fmt r reload st =
        updateNote fmt r reload (JsId.str st.form.noteId) (jsTrim st.form.noteTitle)
          (jsTrim st.form.noteContent) (st.emit Effect.preventDefault) ∧
      (submitHandler fmt r reload st).mutations =
        st.mutations ++ [Effect.fetch "PUT" (API_URL ++ "/" ++ st.form.noteId)
          (some { title := jsTrim st.form.noteTitle,
                  content := jsTrim st.form.noteContent })]) ∧
    (st.form.noteId = "" →
      submitHandler fmt r reload st =
        createNote fmt r reload (jsTrim st.form.noteTitle) (jsTrim st.form.noteContent)
          (st.emit Effect.preventDefault) ∧
      (submitHandler fmt r reload st).mutations =
        st.mutations ++ [Effect.fetch "POST" API_URL
          (some { title := jsTrim st.form.noteTitle,
                  content := jsTrim st.form.noteContent })]) ∧
    IsTrimOf (jsTrim st.form.noteTitle) st.form.noteTitle ∧
    IsTrimOf (jsTrim st.form.noteContent) st.form.noteContent ∧
    (∀ t : String, IsTrimOf t st.form.noteTitle → t = jsTrim st.form.noteTitle) ∧
    (∀ t : String, IsTrimOf t st.form.noteContent → t = jsTrim st.form.noteContent) := by
  refine ⟨?_, ?_, jsTrim_isTrimOf _, jsTrim_isTrimOf _,
    fun t h => isTrimOf_unique t _ h, fun t h => isTrimOf_unique t _ h⟩
  · intro hid
    have key := submitHandler_update fmt r reload st ht hc hid
    refine ⟨key, ?_⟩
    rw [key, updateNote_mutations, emit_preventDefault_mutations]
    rfl
  · intro hid
    have key := submitHandler_create fmt r reload st ht hc hid
    refine ⟨key, ?_⟩
    rw [key, createNote_mutations, emit_preventDefault_mutations]

/-- Witness for C3: a form in Create mode whose title cell is " Groceries "
sends a `POST` with the title "Groceries"; a form in Edit mode for note 5 whose
content cell is "  B" and a line feed sends a `PUT` with the content "B". -/
theorem submit_valid_delegates_once_witness :
    (jsTrim sampleClient.form.noteTitle ≠ "" ∧ jsTrim sampleClient.form.noteContent ≠ "" ∧
      (submitHandler (fun s => s) Fetched.failure Fetched.failure sampleClient).mutations =
        [Effect.fetch "POST" "/api/notes" (some { title := "Groceries", content := "milk" })]) ∧
    (jsTrim editingClient.form.noteTitle ≠ "" ∧ jsTrim editingClient.form.noteContent ≠ "" ∧
      (submitHandler (fun s => s) Fetched.failure Fetched.failure editingClient).mutations =
        [Effect.fetch "PUT" "/api/notes/5" (some { title := "A", content := "B" })]) :=
  ⟨⟨by decide, by decide,
      ((submit_valid_delegates_once (fun s => s) Fetched.failure Fetched.failure sampleClient
        (by decide) (by decide)).2.1 (by decide)).2⟩,
    ⟨by decide, by decide,
      ((submit_valid_delegates_once (fun s => s) Fetched.failure Fetched.failure editingClient
        (by decide) (by decide)).1 (by decide)).2⟩⟩

/-- C4: a success response to `createNote` or `updateNote` leaves every form
cell reset (identifier, title and content empty, button label "Add Note",
cancel action hidden); that is the form `resetForm` produces from any state,
and `resetForm` is idempotent. -/
theorem success_resets_form (fmt : String → String) (json : Option ErrorBody)
    (reload : Fetched (List Note)) (id : JsId) (title content : String) (st : Client) :
    (createNote fmt (Fetched.response true json) reload title content st).form =
      { noteId := "", noteTitle := "", noteContent := "",
        submitBtn := "Add Note", cancelBtn := "none" } ∧
    (updateNote fmt (Fetched.response true json) reload id title content st).form =
      { noteId := "", noteTitle := "", noteContent := "",
        submitBtn := "Add Note", cancelBtn := "none" } ∧
    (resetForm st).form =
      { noteId := "", noteTitle := "", noteContent := "",
        submitBtn := "Add Note", cancelBtn := "none" } ∧
    resetForm (resetForm st) = resetForm st := by
  refine ⟨?_, ?_, rfl, rfl⟩
  · unfold createNote
    simp only [loadNotesResume_form]
    rfl
  · unfold updateNote
    simp only [loadNotesResume_form]
    rfl

/-! ## Rendering of a fetched collection -/

theorem noteCard_head (fmt : String → String) (note : Note) :
    ∃ tail, (noteCard fmt note).data = '\n' :: tail := by
  unfold noteCard
  simp only [String.append_assoc, String.data_append]
  exact ⟨_, rfl⟩

theorem join_cards_ne_emptyState (fmt : String → String) (notes : List Note)
    (h : notes ≠ []) : String.join (notes.map (noteCard fmt)) ≠ emptyStateMessage := by
  cases notes with
  | nil => exact absurd rfl h
  | cons n rest =>
    intro hEq
    have hd := congrArg String.data hEq
    obtain ⟨tail, ht⟩ := noteCard_head fmt n
    rw [List.map_cons, join_cons, String.data_append, ht] at hd
    have h0 := congrArg List.head? hd
    have h1 : emptyStateMessage.data.head? = some '<' := rfl
    rw [h1] at h0
    simp only [List.cons_append, List.head?_cons, Option.some.injEq] at h0
    exact absurd h0 (by decide)

/-- C5: for a fetched collection `notes`, `loadNotes` issues one `GET` of the
collection and leaves the form alone; the render target becomes the empty-state
message when the collection is empty and otherwise the concatenation of the
cards, where the list of cards has the length of the collection and its i-th
entry is the card of the i-th note. A non-empty collection never renders as the
empty-state message. -/
theorem loadNotes_renders_one_card_per_note (fmt : String → String) (ok : Bool)
    (notes : List Note) (st : Client) :
    ∃ cards : List String,
      cards.length = notes.length ∧
      (∀ i : Nat, cards[i]? = (notes[i]?).map (noteCard fmt)) ∧
      (loadNotes fmt (Fetched.response ok (some notes)) st).notesContainer =
        (if notes.length = 0 then emptyStateMessage else String.join cards) ∧
      (notes ≠ [] → String.join cards ≠ emptyStateMessage) ∧
      (loadNotes fmt (Fetched.response ok (some notes)) st).effects =
        st.effects ++ [Effect.fetch "GET" API_URL none] ∧
      (loadNotes fmt (Fetched.response ok (some notes)) st).form = st.form := by
  refine ⟨notes.map (noteCard fmt), by simp, fun i => by simp, ?_, ?_, ?_, ?_⟩
  · unfold loadNotes loadNotesResume
    by_cases h : notes.length = 0
    · simp only [h, if_true]
    · simp only [h, if_false]
      rfl
  · exact join_cards_ne_emptyState fmt notes
  · unfold loadNotes loadNotesResume
    by_cases h : notes.length = 0
    · simp only [h, if_true]
      rfl
    · simp only [h, if_false]
      rfl
  · unfold loadNotes
    rw [loadNotesResume_form]
    rfl

/-- C7: when the confirmation is declined, `deleteNote` does nothing beyond the
confirmation prompt itself: no request, no reload, no notice of either kind,
and the form cells and the render target are as before. -/
theorem deleteNote_declined_is_inert (fmt : String → String) (r : Fetched ErrorBody)
    (reload : Fetched (List Note)) (id : JsId) (st : Client) :
    deleteNote fmt false r reload id st =
      { st with effects := st.effects ++
          [Effect.confirm "Are you sure you want to delete this note?"] } ∧
    (deleteNote fmt false r reload id st).requests = st.requests ∧
    (deleteNote fmt false r reload id st).effects.filter Effect.isShowMessage =
      st.effects.filter Effect.isShowMessage ∧
    (deleteNote fmt false r reload id st).effects.filter Effect.isAlert =
      st.effects.filter Effect.isAlert ∧
    (deleteNote fmt false r reload id st).form = st.form ∧
    (deleteNote fmt false r reload id st).notesContainer = st.notesContainer := by
  have key : deleteNote fmt false r reload id st =
      { st with effects := st.effects ++
          [Effect.confirm "Are you sure you want to delete this note?"] } := rfl
  rw [key]
  simp [Client.requests, Effect.isFetch, Effect.isShowMessage, Effect.isAlert]

/-- C8: for `createNote`, `updateNote` and `deleteNote` (once confirmed), a
non-success response whose body is `{error: m}` adds to the trace only the
request and the blocking notice "Error: " followed by `m`; a network failure
adds only the request, the console entry and the operation's generic notice.
In all six cases the form cells and the render target are untouched and no
reload request follows. -/
theorem mutation_failure_is_reported (fmt : String → String)
    (reload : Fetched (List Note)) (id : JsId) (title content m : String) (st : Client) :
    createNote fmt (Fetched.response false (some (ErrorBody.message m))) reload title content st =
      { st with effects := st.effects ++
          [Effect.fetch "POST" API_URL (some { title := title, content := content }),
           Effect.alert ("Error: " ++ m)] } ∧
    createNote fmt Fetched.failure reload title content st =
      { st with effects := st.effects ++
          [Effect.fetch "POST" API_URL (some { title := title, content := content }),
           Effect.consoleError "Error creating note:",
           Effect.alert "Failed to create note"] } ∧
    updateNote fmt (Fetched.response false (some (ErrorBody.message m))) reload id title content st =
      { st with effects := st.effects ++
          [Effect.fetch "PUT" (API_URL ++ "/" ++ idText id)
             (some { title := title, content := content }),
           Effect.alert ("Error: " ++ m)] } ∧
    updateNote fmt Fetched.failure reload id title content st =
      { st with effects := st.effects ++
          [Effect.fetch "PUT" (API_URL ++ "/" ++ idText id)
             (some { title := title, content := content }),
           Effect.consoleError "Error updating note:",
           Effect.alert "Failed to update note"] } ∧
    deleteNote fmt true (Fetched.response false (some (ErrorBody.message m))) reload id st =
      { st with effects := st.effects ++
          [Effect.confirm "Are you sure you want to delete this note?",
           Effect.fetch "DELETE" (API_URL ++ "/" ++ idText id) none,
           Effect.alert ("Error: " ++ m)] } ∧
    deleteNote fmt true Fetched.failure reload id st =
      { st with effects := st.effects ++
          [Effect.confirm "Are you sure you want to delete this note?",
           Effect.fetch "DELETE" (API_URL ++ "/" ++ idText id) none,
           Effect.consoleError "Error deleting note:",
           Effect.alert "Failed to delete note"] } := by
  refine ⟨?_, ?_, ?_, ?_, ?_, ?_⟩ <;>
    simp [createNote, updateNote, deleteNote, Client.emit, propText, ErrorBody.errorProp]

/-- C9 (the code departs from the claim): when the single-note fetch is answered
with the error object `{error: m}`, `editNote` shows no notice at all and
overwrites the form, whatever the kinds of the page's controls: the three text
cells read "undefined", the button reads "Update Note" and the cancel action is
revealed. Only a rejected fetch or an unreadable body reaches the generic
notice. -/
theorem editNote_error_reply_overwrites_form (page : Page) (ok : Bool) (m : String)
    (id : JsId) (st : Client) :
    editNote page (Fetched.response ok (some (NoteReply.error m))) id st =
      { form := { noteId := "undefined", noteTitle := "undefined",
                  noteContent := "undefined", submitBtn := "Update Note",
                  cancelBtn := "inline-block" },
        notesContainer := st.notesContainer,
        effects := st.effects ++
          [Effect.fetch "GET" (API_URL ++ "/" ++ idText id) none, Effect.scrollTo] } ∧
    (editNote page (Fetched.response ok (some (NoteReply.error m))) id st).effects.filter
        Effect.isAlert = st.effects.filter Effect.isAlert ∧
    editNote page Fetched.failure id st =
      { st with effects := st.effects ++
          [Effect.fetch "GET" (API_URL ++ "/" ++ idText id) none,
           Effect.consoleError "Error loading note:",
           Effect.alert "Failed to load note"] } := by
  refine ⟨?_, ?_, ?_⟩ <;>
    simp [editNote, Client.emit, propText, NoteReply.idProp, NoteReply.titleProp,
      NoteReply.contentProp, Effect.isAlert, sanitizeValue_undefined]

/-! ## Decimal digits -/

theorem digit_toNat (d : Nat) (h : d < 10) : (Char.ofNat (48 + d)).toNat = 48 + d := by
  interval_cases d <;> rfl

theorem digit_isDecimalDigit (d : Nat) (h : d < 10) :
    isDecimalDigit (Char.ofNat (48 + d)) = true := by
  interval_cases d <;> rfl

theorem digit_ne_zero (d : Nat) (h : d < 10) (h0 : d ≠ 0) : Char.ofNat (48 + d) ≠ '0' := by
  interval_cases d
  · exact absurd rfl h0
  all_goals decide

theorem decimalCore_digits (fuel : Nat) : ∀ (n : Nat) (acc : List Char),
    (∀ c ∈ acc, isDecimalDigit c = true) →
    ∀ c ∈ decimalCore fuel n acc, isDecimalDigit c = true := by
  induction fuel with
  | zero => intro n acc h c hc; exact h c hc
  | succ fuel ih =>
    intro n acc h c hc
    unfold decimalCore at hc
    split_ifs at hc with hn
    · rcases List.mem_cons.mp hc with rfl | hc
      · exact digit_isDecimalDigit n hn
      · exact h c hc
    · refine ih (n / 10) _ ?_ c hc
      intro c' hc'
      rcases List.mem_cons.mp hc' with rfl | hc'
      · exact digit_isDecimalDigit _ (Nat.mod_lt _ (by norm_num))
      · exact h c' hc'

theorem decimalCore_value (fuel : Nat) : ∀ (n : Nat) (acc : List Char), n < fuel →
    List.foldl (fun a c => 10 * a + (c.toNat - 48)) 0 (decimalCore fuel n acc) =
      List.foldl (fun a c => 10 * a + (c.toNat - 48)) n acc := by
  induction fuel with
  | zero => intro n acc h; exact absurd h (Nat.not_lt_zero n)
  | succ fuel ih =>
    intro n acc h
    unfold decimalCore
    split_ifs with hn
    · simp [List.foldl, digit_toNat n hn]
    · have hlt : n / 10 < fuel := by omega
      rw [ih (n / 10) _ hlt]
      simp only [List.foldl, digit_toNat (n % 10) (Nat.mod_lt _ (by norm_num))]
      congr 1
      omega

theorem decimalCore_head (fuel : Nat) : ∀ (n : Nat) (acc : List Char), n < fuel →
    ∃ d rest, decimalCore fuel n acc = Char.ofNat (48 + d) :: rest ∧ d < 10 ∧
      (d = 0 → n = 0 ∧ rest = acc) := by
  induction fuel with
  | zero => intro n acc h; exact absurd h (Nat.not_lt_zero n)
  | succ fuel ih =>
    intro n acc h
    unfold decimalCore
    split_ifs with hn
    · exact ⟨n, acc, rfl, hn, fun h0 => ⟨h0, rfl⟩⟩
    · have hlt : n / 10 < fuel := by omega
      obtain ⟨d, rest, hEq, hd, h0⟩ := ih (n / 10) (Char.ofNat (48 + n % 10) :: acc) hlt
      refine ⟨d, rest, hEq, hd, fun hz => ?_⟩
      have := (h0 hz).1
      omega

theorem decimalCore_append (fuel : Nat) : ∀ (n : Nat) (acc : List Char),
    decimalCore fuel n acc = decimalCore fuel n [] ++ acc := by
  induction fuel with
  | zero => intro n acc; rfl
  | succ fuel ih =>
    intro n acc
    unfold decimalCore
    split_ifs with hn
    · rfl
    · rw [ih (n / 10) (_ :: acc), ih (n / 10) [_]]
      simp

theorem natText_digits (s : Nat) : ∀ c ∈ natText s, isDecimalDigit c = true :=
  decimalCore_digits (s + 1) s [] (by simp)

theorem natText_all (s : Nat) : (natText s).all isDecimalDigit = true :=
  List.all_eq_true.mpr (natText_digits s)

theorem natText_value (s : Nat) : digitsValue (natText s) = s := by
  unfold digitsValue natText
  rw [decimalCore_value (s + 1) s [] (Nat.lt_succ_self s)]
  rfl

theorem natText_head (s : Nat) :
    ∃ c rest, natText s = c :: rest ∧ isDecimalDigit c = true ∧
      (0 < s → c ≠ '0') ∧ (c = '0' → rest = []) := by
  obtain ⟨d, rest, hEq, hd, h0⟩ := decimalCore_head (s + 1) s [] (Nat.lt_succ_self s)
  refine ⟨_, rest, hEq, digit_isDecimalDigit d hd, ?_, ?_⟩
  · intro hs
    apply digit_ne_zero d hd
    intro hz
    have := (h0 hz).1
    omega
  · intro hc
    by_cases hz : d = 0
    · exact (h0 hz).2
    · exact absurd hc (digit_ne_zero d hd hz)

theorem natText_last (s : Nat) (h : s % 10 ≠ 0) :
    ∃ init c, natText s = init ++ [c] ∧ c ≠ '0' := by
  unfold natText decimalCore
  split_ifs with hn
  · refine ⟨[], _, rfl, digit_ne_zero s hn ?_⟩
    omega
  · rw [decimalCore_append]
    exact ⟨_, _, rfl, digit_ne_zero _ (Nat.mod_lt _ (by norm_num)) h⟩

/-! ## Reading a decimal literal back -/

theorem takeWhile_digits_append (ds rest : List Char)
    (hds : ∀ c ∈ ds, isDecimalDigit c = true)
    (hrest : ∀ c r, rest = c :: r → isDecimalDigit c = false) :
    (ds ++ rest).takeWhile isDecimalDigit = ds ∧
    (ds ++ rest).dropWhile isDecimalDigit = rest := by
  induction ds with
  | nil =>
    cases rest with
    | nil => exact ⟨rfl, rfl⟩
    | cons c r =>
      have hc := hrest c r rfl
      simp [List.takeWhile, List.dropWhile, hc]
  | cons d ds ih =>
    have hd : isDecimalDigit d = true := hds d (List.mem_cons_self _ _)
    have ih' := ih (fun c hc => hds c (List.mem_cons_of_mem _ hc))
    simp [List.takeWhile, List.dropWhile, hd, ih'.1, ih'.2]

theorem dropWhile_zero_replicate (z : Nat) (ds : List Char)
    (h : ∀ c r, ds = c :: r → c ≠ '0') :
    (List.replicate z '0' ++ ds).dropWhile (fun c => c == '0') = ds := by
  induction z with
  | zero =>
    cases ds with
    | nil => rfl
    | cons c r =>
      have hc : (c == '0') = false := beq_eq_false_iff_ne.mpr (h c r rfl)
      simp only [List.replicate_zero, List.nil_append, List.dropWhile_cons, hc]
      rfl
  | succ z ih =>
    simp only [List.replicate_succ, List.cons_append, List.dropWhile_cons, beq_self_eq_true,
      if_true]
    exact ih

theorem dropTrailingZeros_append (init : List Char) (c : Char) (hc : c ≠ '0') (z : Nat) :
    dropTrailingZeros ((init ++ [c]) ++ List.replicate z '0') = init ++ [c] := by
  unfold dropTrailingZeros
  rw [List.reverse_append, List.reverse_replicate,
    dropWhile_zero_replicate z _ (by
      intro c' r hEq
      simp only [List.reverse_append, List.reverse_cons, List.reverse_nil, List.nil_append,
        List.singleton_append, List.cons.injEq] at hEq
      rw [← hEq.1]
      exact hc)]
  simp

theorem decimalNumber_eq (s : Nat) (hs : 0 < s) (h10 : s % 10 ≠ 0)
    (intPart frac : List Char) (e : Int) (zp zs : Nat)
    (h : intPart ++ frac =
      List.replicate zp '0' ++ (natText s ++ List.replicate zs '0')) :
    decimalNumber intPart frac e =
      JsNumber.finite false s ((intPart.length : Int) + e - (zp : Int)) := by
  obtain ⟨c, rest, hEq, _, hc0, _⟩ := natText_head s
  obtain ⟨init, l, hLast, hl⟩ := natText_last s h10
  have hdrop : (intPart ++ frac).dropWhile (fun c => c == '0') =
      natText s ++ List.replicate zs '0' := by
    rw [h]
    apply dropWhile_zero_replicate
    intro c' r hcr
    rw [hEq] at hcr
    simp only [List.cons_append, List.cons.injEq] at hcr
    rw [← hcr.1]
    exact hc0 hs
  have hkept : dropTrailingZeros (natText s ++ List.replicate zs '0') = natText s := by
    rw [hLast]
    exact dropTrailingZeros_append init l hl zs
  have hne : natText s ≠ [] := by rw [hEq]; exact List.cons_ne_nil _ _
  have hlen : (intPart ++ frac).length - (natText s ++ List.replicate zs '0').length = zp := by
    rw [h]
    simp
  unfold decimalNumber
  simp only [hdrop, hkept, hne, if_false, hlen, natText_value]

theorem readExponent_plus (m : Nat) :
    readExponent ('e' :: '+' :: natText m) = some (m : Int) := by
  obtain ⟨c, rest, hEq, _, _, _⟩ := natText_head m
  have hne : natText m ≠ [] := by rw [hEq]; exact List.cons_ne_nil _ _
  simp [readExponent, hne, natText_all, natText_value]

theorem readExponent_minus (m : Nat) :
    readExponent ('e' :: '-' :: natText m) = some (-(m : Int)) := by
  obtain ⟨c, rest, hEq, _, _, _⟩ := natText_head m
  have hne : natText m ≠ [] := by rw [hEq]; exact List.cons_ne_nil _ _
  simp [readExponent, hne, natText_all, natText_value]

theorem readNumericLiteral_int (intPart tail : List Char) (hne : intPart ≠ [])
    (hdig : ∀ c ∈ intPart, isDecimalDigit c = true)
    (hlead : intPart.head? = some '0' → intPart.length = 1)
    (htail : ∀ c r, tail = c :: r → isDecimalDigit c = false ∧ c ≠ '.') :
    readNumericLiteral (intPart ++ tail) =
      (readExponent tail).map (decimalNumber intPart []) := by
  obtain ⟨h1, h2⟩ := takeWhile_digits_append intPart tail hdig
    (fun c r h => (htail c r h).1)
  have hl : ¬ (intPart.head? = some '0' ∧ 1 < intPart.length) := by
    rintro ⟨ha, hb⟩
    have := hlead ha
    omega
  unfold readNumericLiteral
  simp only [h1, h2, hne, if_false, hl]
  cases tail with
  | nil => simp [readExponent]
  | cons c r =>
    have hc := (htail c r rfl).2
    simp only [hc, if_false]

theorem readNumericLiteral_frac (intPart frac tail : List Char) (hne : intPart ≠ [])
    (hdig : ∀ c ∈ intPart, isDecimalDigit c = true)
    (hlead : intPart.head? = some '0' → intPart.length = 1)
    (hfrac : ∀ c ∈ frac, isDecimalDigit c = true)
    (htail : ∀ c r, tail = c :: r → isDecimalDigit c = false) :
    readNumericLiteral (intPart ++ '.' :: (frac ++ tail)) =
      (readExponent tail).map (decimalNumber intPart frac) := by
  obtain ⟨h1, h2⟩ := takeWhile_digits_append intPart ('.' :: (frac ++ tail)) hdig
    (by
      intro c r h
      simp only [List.cons.injEq] at h
      rw [← h.1]
      decide)
  obtain ⟨h3, h4⟩ := takeWhile_digits_append frac tail hfrac htail
  have hl : ¬ (intPart.head? = some '0' ∧ 1 < intPart.length) := by
    rintro ⟨ha, hb⟩
    have := hlead ha
    omega
  unfold readNumericLiteral
  simp only [h1, h2, hne, if_false, hl, if_true, h3, h4]

theorem readExponent_finite (n : Int) (h : ¬ (-5 ≤ n ∧ n ≤ 21)) :
    readExponent ('e' :: (if n < 0 then '-' else '+') :: natText (n - 1).natAbs) =
      some (n - 1) := by
  by_cases hn : n < 0
  · rw [if_pos hn, readExponent_minus]
    congr 1
    omega
  · rw [if_neg hn, readExponent_plus]
    congr 1
    omega

theorem readNumericLiteral_finiteText (s : Nat) (n : Int) (hs : 0 < s) (h10 : s % 10 ≠ 0) :
    readNumericLiteral (finiteText s n) = some (JsNumber.finite false s n) := by
  obtain ⟨c, rest, hEq, hcd, hc0, _⟩ := natText_head s
  have hc : c ≠ '0' := hc0 hs
  have hdig := natText_digits s
  have hne : natText s ≠ [] := by rw [hEq]; exact List.cons_ne_nil _ _
  have hlen : (natText s).length = rest.length + 1 := by rw [hEq]; rfl
  have hzero : isDecimalDigit '0' = true := by decide
  have he : isDecimalDigit 'e' = false ∧ 'e' ≠ '.' := by decide
  unfold finiteText
  simp only []
  by_cases hr : -5 ≤ n ∧ n ≤ 21
  on_goal 1 => rw [if_pos hr]; by_cases hk : ((natText s).length : Int) ≤ n
  on_goal 1 => rw [if_pos hk]
  on_goal 2 => rw [if_neg hk]; by_cases hpos : 0 < n
  on_goal 2 => rw [if_pos hpos]
  on_goal 3 => rw [if_neg hpos]
  on_goal 4 => rw [if_neg hr]; by_cases h1 : (natText s).length = 1
  on_goal 4 => rw [if_pos h1]
  on_goal 5 => rw [if_neg h1]
  · -- digits followed by zeros
    have key := readNumericLiteral_int
      (natText s ++ List.replicate (n - ((natText s).length : Int)).toNat '0') [] (by simp [hne])
      (by
        intro d hd
        rcases List.mem_append.mp hd with hd | hd
        · exact hdig d hd
        · rw [(List.mem_replicate.mp hd).2]; exact hzero)
      (by
        intro h0
        rw [hEq] at h0
        simp only [List.cons_append, List.head?_cons, Option.some.injEq] at h0
        exact absurd h0 hc)
      (by intro d r h; simp at h)
    rw [List.append_nil] at key
    rw [key]
    simp only [readExponent, Option.map_some']
    rw [decimalNumber_eq s hs h10 _ [] 0 0 (n - ((natText s).length : Int)).toNat (by simp)]
    refine congrArg some (congrArg (JsNumber.finite false s) ?_)
    simp only [List.length_append, List.length_replicate]
    push_cast
    omega
  · -- digits with a decimal point inside
    have hn1 : 1 ≤ n.toNat := by omega
    have key := readNumericLiteral_frac ((natText s).take n.toNat) ((natText s).drop n.toNat) []
      (by
        rw [hEq]
        obtain ⟨m, hm⟩ : ∃ m, n.toNat = m + 1 := ⟨n.toNat - 1, by omega⟩
        rw [hm]
        simp)
      (fun d hd => hdig d (List.mem_of_mem_take hd))
      (by
        intro h0
        exfalso
        rw [hEq] at h0
        obtain ⟨m, hm⟩ : ∃ m, n.toNat = m + 1 := ⟨n.toNat - 1, by omega⟩
        rw [hm] at h0
        simp only [List.take_succ_cons, List.head?_cons, Option.some.injEq] at h0
        exact hc h0)
      (fun d hd => hdig d (List.mem_of_mem_drop hd))
      (by intro d r h; simp at h)
    rw [List.append_nil] at key
    rw [key]
    simp only [readExponent, Option.map_some']
    rw [decimalNumber_eq s hs h10 _ _ 0 0 0 (by rw [List.take_append_drop]; simp)]
    refine congrArg some (congrArg (JsNumber.finite false s) ?_)
    simp only [List.length_take]
    push_cast
    omega
  · -- a zero, a point, zeros, digits
    have key := readNumericLiteral_frac ['0']
      (List.replicate (-n).toNat '0' ++ natText s) []
      (by simp)
      (by intro d hd; rw [List.mem_singleton.mp hd]; exact hzero)
      (by intro _; rfl)
      (by
        intro d hd
        rcases List.mem_append.mp hd with hd | hd
        · rw [(List.mem_replicate.mp hd).2]; exact hzero
        · exact hdig d hd)
      (by intro d r h; simp at h)
    simp only [List.append_nil, List.singleton_append] at key
    rw [key]
    simp only [readExponent, Option.map_some']
    rw [decimalNumber_eq s hs h10 _ _ 0 ((-n).toNat + 1) 0 (by
      simp [List.replicate_succ])]
    refine congrArg some (congrArg (JsNumber.finite false s) ?_)
    simp only [List.length_singleton]
    push_cast
    omega
  · -- one digit and an exponent
    have key := readNumericLiteral_int (natText s)
      ('e' :: (if n < 0 then '-' else '+') :: natText (n - 1).natAbs) hne hdig
      (by intro _; exact h1)
      (by
        intro d r h
        simp only [List.cons.injEq] at h
        rw [← h.1]
        exact he)
    rw [key, readExponent_finite n hr]
    simp only [Option.map_some']
    rw [decimalNumber_eq s hs h10 _ [] _ 0 0 (by simp)]
    refine congrArg some (congrArg (JsNumber.finite false s) ?_)
    rw [h1]
    push_cast
    omega
  · -- a digit, a point, digits and an exponent
    have key := readNumericLiteral_frac ((natText s).take 1) ((natText s).drop 1)
      ('e' :: (if n < 0 then '-' else '+') :: natText (n - 1).natAbs)
      (by rw [hEq]; simp)
      (fun d hd => hdig d (List.mem_of_mem_take hd))
      (by intro _; rw [hEq]; simp)
      (fun d hd => hdig d (List.mem_of_mem_drop hd))
      (by
        intro d r h
        simp only [List.cons.injEq] at h
        rw [← h.1]
        exact he.1)
    rw [key, readExponent_finite n hr]
    simp only [Option.map_some']
    rw [decimalNumber_eq s hs h10 _ _ _ 0 0 (by rw [List.take_append_drop]; simp)]
    refine congrArg some (congrArg (JsNumber.finite false s) ?_)
    rw [hEq]
    simp only [List.take_succ_cons, List.take_zero, List.length_singleton]
    push_cast
    omega

/-! ## Text of a numeric identifier -/

theorem finiteText_head (s : Nat) (n : Int) :
    ∃ c rest, finiteText s n = c :: rest ∧ isDecimalDigit c = true := by
  obtain ⟨c, rest, hEq, hcd, _, _⟩ := natText_head s
  unfold finiteText
  simp only []
  by_cases hr : -5 ≤ n ∧ n ≤ 21
  · rw [if_pos hr]
    by_cases hk : ((natText s).length : Int) ≤ n
    · rw [if_pos hk, hEq]
      exact ⟨c, _, rfl, hcd⟩
    · rw [if_neg hk]
      by_cases hpos : 0 < n
      · rw [if_pos hpos, hEq]
        obtain ⟨m, hm⟩ : ∃ m, n.toNat = m + 1 := ⟨n.toNat - 1, by omega⟩
        rw [hm]
        exact ⟨c, _, rfl, hcd⟩
      · rw [if_neg hpos]
        exact ⟨'0', _, rfl, by decide⟩
  · rw [if_neg hr]
    by_cases h1 : (natText s).length = 1
    · rw [if_pos h1, hEq]
      exact ⟨c, _, rfl, hcd⟩
    · rw [if_neg h1, hEq]
      exact ⟨c, _, rfl, hcd⟩

theorem finiteText_chars (s : Nat) (n : Int) :
    ∀ c ∈ finiteText s n, isNumberTextChar c = true := by
  have hd : ∀ (m : Nat) (c : Char), c ∈ natText m → isNumberTextChar c = true := by
    intro m c hc
    simp [isNumberTextChar, natText_digits m c hc]
  have hz : isNumberTextChar '0' = true := by decide
  have hp : isNumberTextChar '.' = true := by decide
  have he : isNumberTextChar 'e' = true := by decide
  have hsign : isNumberTextChar (if n < 0 then '-' else '+') = true := by
    split_ifs <;> decide
  intro c hc
  unfold finiteText at hc
  simp only [] at hc
  by_cases hr : -5 ≤ n ∧ n ≤ 21
  · rw [if_pos hr] at hc
    by_cases hk : ((natText s).length : Int) ≤ n
    · rw [if_pos hk] at hc
      rcases List.mem_append.mp hc with h | h
      · exact hd s c h
      · rw [(List.mem_replicate.mp h).2]; exact hz
    · rw [if_neg hk] at hc
      by_cases hpos : 0 < n
      · rw [if_pos hpos] at hc
        rcases List.mem_append.mp hc with h | h
        · exact hd s c (List.mem_of_mem_take h)
        · rcases List.mem_cons.mp h with rfl | h
          · exact hp
          · exact hd s c (List.mem_of_mem_drop h)
      · rw [if_neg hpos] at hc
        rcases List.mem_cons.mp hc with rfl | h
        · exact hz
        · rcases List.mem_cons.mp h with rfl | h
          · exact hp
          · rcases List.mem_append.mp h with h | h
            · rw [(List.mem_replicate.mp h).2]; exact hz
            · exact hd s c h
  · rw [if_neg hr] at hc
    have htail : ∀ c ∈ 'e' :: (if n < 0 then '-' else '+') :: natText (n - 1).natAbs,
        isNumberTextChar c = true := by
      intro c h
      rcases List.mem_cons.mp h with rfl | h
      · exact he
      · rcases List.mem_cons.mp h with rfl | h
        · exact hsign
        · exact hd _ c h
    by_cases h1 : (natText s).length = 1
    · rw [if_pos h1] at hc
      rcases List.mem_append.mp hc with h | h
      · exact hd s c h
      · exact htail c h
    · rw [if_neg h1] at hc
      rcases List.mem_append.mp hc with h | h
      · exact hd s c (List.mem_of_mem_take h)
      · rcases List.mem_cons.mp h with rfl | h
        · exact hp
        · rcases List.mem_append.mp h with h | h
          · exact hd s c (List.mem_of_mem_drop h)
          · exact htail c h

theorem numberText_chars (x : JsNumber) :
    ∀ c ∈ numberText x, isNumberTextChar c = true := by
  intro c hc
  cases x with
  | zero =>
    rw [List.mem_singleton.mp hc]; decide
  | finite negative s n =>
    rcases List.mem_append.mp hc with h | h
    · cases negative
      · simp at h
      · rw [List.mem_singleton.mp h]; decide
    · exact finiteText_chars s n c h
  | infinity negative =>
    rcases List.mem_append.mp hc with h | h
    · cases negative
      · simp at h
      · rw [List.mem_singleton.mp h]; decide
    · simp only [List.mem_cons, List.mem_singleton, List.not_mem_nil, or_false] at h
      rcases h with rfl | rfl | rfl | rfl | rfl | rfl | rfl | rfl <;> decide

theorem markupInert_idText_num (x : JsNumber) : markupInert (idText (JsId.num x)) = true := by
  unfold markupInert idText
  rw [List.all_eq_true]
  intro c hc
  have hq : isNumberTextChar (Char.ofNat 34) = false := by decide
  have hl : isNumberTextChar '<' = false := by decide
  have hg : isNumberTextChar '>' = false := by decide
  have ha : isNumberTextChar '&' = false := by decide
  have h := numberText_chars x c hc
  simp only [Bool.and_eq_true, bne_iff_ne, ne_eq]
  refine ⟨⟨⟨?_, ?_⟩, ?_⟩, ?_⟩ <;> rintro rfl <;> simp_all

theorem readUnsigned_finiteText (s : Nat) (n : Int) (hs : 0 < s) (h10 : s % 10 ≠ 0) :
    readUnsigned (finiteText s n) = some (JsNumber.finite false s n) := by
  obtain ⟨c, rest, hEq, hcd⟩ := finiteText_head s n
  have hne : finiteText s n ≠ ['I', 'n', 'f', 'i', 'n', 'i', 't', 'y'] := by
    rw [hEq]
    intro h
    simp only [List.cons.injEq] at h
    rw [h.1] at hcd
    exact absurd hcd (by decide)
  unfold readUnsigned
  rw [if_neg hne]
  exact readNumericLiteral_finiteText s n hs h10

theorem readArgument_idText_num (x : JsNumber) (hx : x.canonical = true) :
    readArgument (idText (JsId.num x)) = some (JsId.num x) := by
  cases x with
  | zero => decide
  | infinity negative => cases negative <;> decide
  | finite negative s n =>
    simp only [JsNumber.canonical, Bool.and_eq_true, decide_eq_true_eq] at hx
    have hr := readUnsigned_finiteText s n hx.1 hx.2
    cases negative with
    | true =>
      simp only [readArgument, idText, numberText, if_true, List.singleton_append, hr,
        Option.map_some', JsNumber.negate]
      rfl
    | false =>
      obtain ⟨c, rest, hEq, hcd⟩ := finiteText_head s n
      have hc : c ≠ '-' := by
        rintro rfl
        exact absurd hcd (by decide)
      simp only [readArgument, idText, numberText]
      rw [hEq] at hr ⊢
      simp only [Bool.false_eq_true, if_false, List.nil_append, if_neg hc, hr, Option.map_some']

/-! ## Editing -/

theorem editNote_note_form (page : Page) (ok : Bool) (n : Note) (id : JsId) (st : Client) :
    (editNote page (Fetched.response ok (some (NoteReply.note n))) id st).form =
      { noteId := sanitizeValue page.noteId (idText n.id),
        noteTitle := sanitizeValue page.noteTitle n.title,
        noteContent := sanitizeValue page.noteContent n.content,
        submitBtn := "Update Note", cancelBtn := "inline-block" } := by
  simp [editNote, Client.emit, propText, NoteReply.idProp, NoteReply.titleProp,
    NoteReply.contentProp]

theorem editNote_mutations (page : Page) (r : Fetched NoteReply) (id : JsId) (st : Client) :
    (editNote page r id st).mutations = st.mutations := by
  unfold editNote
  rcases r with _ | ⟨_, _ | _⟩ <;>
    simp [Client.mutations, Client.emit, Effect.isMutation]

theorem noLineBreak_idText_num (x : JsNumber) : noLineBreak (idText (JsId.num x)) = true := by
  unfold noLineBreak idText
  rw [List.all_eq_true]
  intro c hc
  have h10 : isNumberTextChar (Char.ofNat 10) = false := by decide
  have h13 : isNumberTextChar (Char.ofNat 13) = false := by decide
  have h := numberText_chars x c hc
  simp only [Bool.and_eq_true, bne_iff_ne, ne_eq]
  refine ⟨?_, ?_⟩ <;> rintro rfl <;> simp_all

theorem idText_num_ne_empty (x : JsNumber) : idText (JsId.num x) ≠ "" := by
  intro h
  have hd : numberText x = [] := congrArg String.data h
  cases x with
  | zero => exact absurd hd (by decide)
  | finite negative s n =>
    obtain ⟨c, rest, hEq, _⟩ := finiteText_head s n
    simp only [numberText, hEq] at hd
    cases negative <;> simp at hd
  | infinity negative => cases negative <;> exact absurd hd (by decide)

/-- C6 as stated fails in two ways. On a page whose title is a text input and
whose content is a textarea, a note with title "Line1", line feed, "Line2" and
content "a", CR, LF, "b" leaves the title cell "Line1Line2" and the content
cell "a", LF, "b", not exactly the note's texts. And a note whose identifier is
the empty string leaves the identifier cell empty, so a following valid submit
is a `createNote` and sends a `POST`, not a `PUT`. -/
theorem editNote_form_differs_from_note :
    ((editNote standardPage (Fetched.response true (some (NoteReply.note multiLineNote)))
        (JsId.num (JsNumber.finite false 5 1)) sampleClient).form.noteTitle = "Line1Line2" ∧
      (editNote standardPage (Fetched.response true (some (NoteReply.note multiLineNote)))
        (JsId.num (JsNumber.finite false 5 1)) sampleClient).form.noteTitle ≠
          multiLineNote.title ∧
      (editNote standardPage (Fetched.response true (some (NoteReply.note multiLineNote)))
        (JsId.num (JsNumber.finite false 5 1)) sampleClient).form.noteContent = "a\nb" ∧
      (editNote standardPage (Fetched.response true (some (NoteReply.note multiLineNote)))
        (JsId.num (JsNumber.finite false 5 1)) sampleClient).form.noteContent ≠
          multiLineNote.content) ∧
    ((editNote standardPage (Fetched.response true (some (NoteReply.note emptyIdNote)))
        (JsId.num (JsNumber.finite false 7 1)) sampleClient).form.noteId = "" ∧
      submitHandler (fun s => s) Fetched.failure Fetched.failure
          (editNote standardPage (Fetched.response true (some (NoteReply.note emptyIdNote)))
            (JsId.num (JsNumber.finite false 7 1)) sampleClient) =
        createNote (fun s => s) Fetched.failure Fetched.failure "A" "B"
          ((editNote standardPage (Fetched.response true (some (NoteReply.note emptyIdNote)))
            (JsId.num (JsNumber.finite false 7 1)) sampleClient).emit Effect.preventDefault) ∧
      (submitHandler (fun s => s) Fetched.failure Fetched.failure
          (editNote standardPage (Fetched.response true (some (NoteReply.note emptyIdNote)))
            (JsId.num (JsNumber.finite false 7 1)) sampleClient)).mutations =
        [Effect.fetch "POST" "/api/notes" (some { title := "A", content := "B" })]) := by
  decide

/-- C6 (amended): for every note returned by the single-note fetch and every
kind of control, `editNote` leaves the cells holding the identifier's text, the
title and the content as the controls store them, the button label
"Update Note" and the cancel action revealed, and does not touch the render
target. Whenever the controls store the three texts unchanged, the form holds
exactly that identifier, title and content; when in addition the identifier's
text is non-empty, the form is in Edit mode: a following valid submit is
`updateNote` with that identifier and sends one `PUT` to that note's URL. A text
without CR and LF is stored unchanged by every control, a text without CR by a
textarea, and the text of a numeric identifier is non-empty and stored
unchanged by every control. -/
theorem editNote_populates_form (fmt : String → String) (r : Fetched ErrorBody)
    (reload : Fetched (List Note)) (page : Page) (ok : Bool) (n : Note) (id : JsId)
    (st : Client) :
    (editNote page (Fetched.response ok (some (NoteReply.note n))) id st).form =
      { noteId := sanitizeValue page.noteId (idText n.id),
        noteTitle := sanitizeValue page.noteTitle n.title,
        noteContent := sanitizeValue page.noteContent n.content,
        submitBtn := "Update Note", cancelBtn := "inline-block" } ∧
    (editNote page (Fetched.response ok (some (NoteReply.note n))) id st).notesContainer =
      st.notesContainer ∧
    (sanitizeValue page.noteId (idText n.id) = idText n.id →
      sanitizeValue page.noteTitle n.title = n.title →
      sanitizeValue page.noteContent n.content = n.content →
      (editNote page (Fetched.response ok (some (NoteReply.note n))) id st).form =
        { noteId := idText n.id, noteTitle := n.title, noteContent := n.content,
          submitBtn := "Update Note", cancelBtn := "inline-block" } ∧
      (idText n.id ≠ "" → jsTrim n.title ≠ "" → jsTrim n.content ≠ "" →
        submitHandler fmt r reload
            (editNote page (Fetched.response ok (some (NoteReply.note n))) id st) =
          updateNote fmt r reload (JsId.str (idText n.id)) (jsTrim n.title)
            (jsTrim n.content)
            ((editNote page (Fetched.response ok (some (NoteReply.note n))) id st).emit
              Effect.preventDefault) ∧
        (submitHandler fmt r reload
            (editNote page (Fetched.response ok (some (NoteReply.note n))) id st)).mutations =
          st.mutations ++ [Effect.fetch "PUT" (API_URL ++ "/" ++ idText n.id)
            (some { title := jsTrim n.title, content := jsTrim n.content })])) ∧
    (∀ (kind : ControlKind) (text : String),
      noLineBreak text = true → sanitizeValue kind text = text) ∧
    (∀ text : String, (∀ c ∈ text.data, c ≠ Char.ofNat 13) →
      sanitizeValue ControlKind.multiLine text = text) ∧
    (∀ (kind : ControlKind) (x : JsNumber),
      sanitizeValue kind (idText (JsId.num x)) = idText (JsId.num x) ∧
      idText (JsId.num x) ≠ "") := by
  have hf := editNote_note_form page ok n id st
  refine ⟨hf, ?_, ?_, sanitizeValue_noLineBreak, sanitizeValue_multiLine, ?_⟩
  · simp [editNote, Client.emit]
  · intro h1 h2 h3
    have hf' : (editNote page (Fetched.response ok (some (NoteReply.note n))) id st).form =
        { noteId := idText n.id, noteTitle := n.title, noteContent := n.content,
          submitBtn := "Update Note", cancelBtn := "inline-block" } := by
      rw [hf, h1, h2, h3]
    refine ⟨hf', ?_⟩
    intro hid ht hc
    have key := submitHandler_update fmt r reload
      (editNote page (Fetched.response ok (some (NoteReply.note n))) id st)
      (by rw [hf']; exact ht) (by rw [hf']; exact hc) (by rw [hf']; exact hid)
    simp only [hf'] at key
    refine ⟨key, ?_⟩
    rw [key, updateNote_mutations, emit_preventDefault_mutations, editNote_mutations]
    rfl
  · intro kind x
    exact ⟨sanitizeValue_noLineBreak kind _ (noLineBreak_idText_num x), idText_num_ne_empty x⟩

/-- Witness for C6: the note with id 5, title "A" and content "B" on a page
with a hidden identifier, a text input and a textarea: the cells read "5", "A"
and "B", and a following submit sends a `PUT` to `/api/notes/5`. -/
theorem editNote_populates_form_witness :
    (sanitizeValue standardPage.noteId (idText exampleNote.id) = idText exampleNote.id ∧
      sanitizeValue standardPage.noteTitle exampleNote.title = exampleNote.title ∧
      sanitizeValue standardPage.noteContent exampleNote.content = exampleNote.content) ∧
    (idText exampleNote.id ≠ "" ∧ jsTrim exampleNote.title ≠ "" ∧
      jsTrim exampleNote.content ≠ "") ∧
    (editNote standardPage (Fetched.response true (some (NoteReply.note exampleNote)))
        (JsId.num (JsNumber.finite false 5 1)) sampleClient).form =
      { noteId := "5", noteTitle := "A", noteContent := "B",
        submitBtn := "Update Note", cancelBtn := "inline-block" } ∧
    (submitHandler (fun s => s) Fetched.failure Fetched.failure
        (editNote standardPage (Fetched.response true (some (NoteReply.note exampleNote)))
          (JsId.num (JsNumber.finite false 5 1)) sampleClient)).mutations =
      [Effect.fetch "PUT" "/api/notes/5" (some { title := "A", content := "B" })] :=
  ⟨⟨by decide, by decide, by decide⟩, ⟨by decide, by decide, by decide⟩,
    ((editNote_populates_form (fun s => s) Fetched.failure Fetched.failure standardPage true
      exampleNote (JsId.num (JsNumber.finite false 5 1)) sampleClient).2.2.1
        (by decide) (by decide) (by decide)).1,
    (((editNote_populates_form (fun s => s) Fetched.failure Fetched.failure standardPage true
      exampleNote (JsId.num (JsNumber.finite false 5 1)) sampleClient).2.2.1
        (by decide) (by decide) (by decide)).2 (by decide) (by decide) (by decide)).2⟩

/-! ## Identifiers in the card -/

/-- C10 as stated fails for string identifiers: for the identifier "a3f9" the
trigger text is `editNote(a3f9)`, whose argument is not that string, and for an
identifier holding a double quote the inserted text ends the attribute. -/
theorem string_id_not_bound_safely :
    ¬ idBoundSafely (JsId.str "a3f9") ∧
    readArgument (idText (JsId.str "a3f9")) = none ∧
    markupInert (idText (JsId.str "7\" autofocus onfocus=\"alert(1)")) = false ∧
    ¬ idBoundSafely (JsId.str "7\" autofocus onfocus=\"alert(1)") := by
  refine ⟨?_, by decide, by decide, ?_⟩
  · intro h
    exact absurd h.1 (by decide)
  · intro h
    exact absurd h.2 (by decide)

/-- C10 (amended): for every note whose identifier is a number, the card opens
with the identifier's text in the `data-id` attribute, its Edit button is
`<button class="edit-btn" onclick="editNote(T)">Edit</button>` and its Delete
button is `<button class="delete-btn" onclick="deleteNote(T)">Delete</button>`,
where `T` is the text `Number::toString` gives for the identifier. That text
reads back as exactly that number, and it is made of digits, signs, the decimal
point, the exponent mark and the letters of `Infinity` only, so it holds no
double quote, `<`, `>` or `&`. -/
theorem numeric_id_bound_safely (fmt : String → String) (x : JsNumber)
    (title content created_at : String) (hx : x.canonical = true) :
    idBoundSafely (JsId.num x) ∧
    (∀ c ∈ (idText (JsId.num x)).data, isNumberTextChar c = true) ∧
    noteCard fmt { id := JsId.num x, title := title, content := content,
                   created_at := created_at } =
      "\n        <div class=\"note-card\" data-id=\"" ++ idText (JsId.num x) ++ "\">" ++
      ("\n            <div class=\"note-meta\">\n                🕒 " ++ fmt created_at ++
        "\n            </div>\n            <h3>📌 " ++ escapeHtml title ++
        "</h3>\n            <p>" ++ escapeHtml content ++
        "</p>\n            <div class=\"note-actions\">\n                ") ++
      ("<button class=\"edit-btn\" onclick=\"editNote(" ++ idText (JsId.num x) ++
        ")\">Edit</button>") ++
      "\n                " ++
      ("<button class=\"delete-btn\" onclick=\"deleteNote(" ++ idText (JsId.num x) ++
        ")\">Delete</button>") ++
      "\n            </div>\n        </div>\n    " := by
  refine ⟨⟨readArgument_idText_num x hx, markupInert_idText_num x⟩, numberText_chars x, ?_⟩
  apply String.ext
  simp only [noteCard, String.append_assoc, String.data_append, List.append_assoc]
  rfl

/-- Witness for C10: the identifiers 5 and 2^64, whose texts are "5" and
"18446744073709552000", and the texts of 1.5, 10^21, -1.2e-7, 0.000001, zero
and `-Infinity`. -/
theorem numeric_id_bound_safely_witness :
    ((JsNumber.finite false 5 1).canonical = true ∧
      idText (JsId.num (JsNumber.finite false 5 1)) = "5" ∧
      idBoundSafely (JsId.num (JsNumber.finite false 5 1))) ∧
    ((JsNumber.finite false 18446744073709552 20).canonical = true ∧
      idText (JsId.num (JsNumber.finite false 18446744073709552 20)) =
        "18446744073709552000" ∧
      idBoundSafely (JsId.num (JsNumber.finite false 18446744073709552 20))) ∧
    idText (JsId.num (JsNumber.finite false 15 1)) = "1.5" ∧
    idText (JsId.num (JsNumber.finite false 1 22)) = "1e+21" ∧
    idText (JsId.num (JsNumber.finite true 12 (-6))) = "-1.2e-7" ∧
    idText (JsId.num (JsNumber.finite false 1 (-5))) = "0.000001" ∧
    idText (JsId.num JsNumber.zero) = "0" ∧
    idText (JsId.num (JsNumber.infinity true)) = "-Infinity" :=
  ⟨⟨by decide, by decide,
      (numeric_id_bound_safely (fun s => s) (JsNumber.finite false 5 1) "A" "B" ""
        (by decide)).1⟩,
    ⟨by decide, by decide,
      (numeric_id_bound_safely (fun s => s) (JsNumber.finite false 18446744073709552 20)
        "A" "B" "" (by decide)).1⟩,
    by decide, by decide, by decide, by decide, by decide, by decide⟩

end NotesApp
